import Mathlib

/-!
Verification of the Chaum-Pedersen proof module (`chaum_pedersen.py`) of an
ElGamal-based verifiable-voting core.

The module's collaborators (modular group arithmetic over primes `P`/`Q`, the
Fiat-Shamir challenge hash, and the seeded nonce stream) live outside the
translated source; they are modelled from the specification's collaborator
contracts (§6) as fields of a context `Ctx` together with explicit hypotheses
(generator order, hash and nonce ranges).  `ElementModP` / `ElementModQ` values
are plain naturals; the Python `int` arguments that may be negative (the
`plaintext` and `constant` parameters) are `Int`.
-/

/-- Modelled from the spec: the external collaborator bundle — group moduli
`P` and `Q`, generator `g`, the Fiat-Shamir challenge hash (an ordered list of
elements to a scalar), and the seed/label-indexed nonce stream. -/
structure Ctx where
  P : Nat
  Q : Nat
  g : Nat
  hash : List Nat → Nat
  nonce : Nat → String → Nat → Nat

/-- Modelled from the spec: `pow(base: P, exp: Q) -> P`, exponentiation mod `P`. -/
def pow_p (ctx : Ctx) (b e : Nat) : Nat :=
  b ^ e % ctx.P

/-- Modelled from the spec: `generatorPow(exp: Q) -> P`, `g ^ exp` mod `P`. -/
def g_pow_p (ctx : Ctx) (e : Nat) : Nat :=
  pow_p ctx ctx.g e

/-- Modelled from the spec: `mul(P...)`, product mod `P` (binary case; the
variadic source call folds left, so the three-argument use is a nested pair). -/
def mult_p (ctx : Ctx) (a b : Nat) : Nat :=
  a * b % ctx.P

/-- Modelled from the spec: `isValidResidue(P) -> bool`, membership in the
order-`Q` subgroup mod `P`: in bounds and `x ^ Q ≡ 1 (mod P)`. -/
def valid_residue (ctx : Ctx) (x : Nat) : Bool :=
  decide (x < ctx.P) && decide (x ^ ctx.Q % ctx.P = 1)

/-- Modelled from the spec: `inBoundsQ(Q) -> bool`, scalar within `[0, Q)`. -/
def in_bounds_q (ctx : Ctx) (x : Nat) : Bool :=
  decide (x < ctx.Q)

/-- Modelled from the spec: `add(Q,Q) -> Q`, addition mod `Q`. -/
def add_q (ctx : Ctx) (a b : Nat) : Nat :=
  (a + b) % ctx.Q

/-- Modelled from the spec: `negate(Q) -> Q`, additive inverse mod `Q`. -/
def negate_q (ctx : Ctx) (a : Nat) : Nat :=
  (ctx.Q - a % ctx.Q) % ctx.Q

/-- Modelled from the spec: `subtract(Q,Q) -> Q`, `a - b` mod `Q`. -/
def a_minus_b_q (ctx : Ctx) (a b : Nat) : Nat :=
  (a + (ctx.Q - b % ctx.Q)) % ctx.Q

/-- Modelled from the spec: `a + b*c (mod Q)`. -/
def a_plus_bc_q (ctx : Ctx) (a b c : Nat) : Nat :=
  (a + b * c) % ctx.Q

/-- Modelled from the spec: `intToScalar(integer) -> Option<Q>`, failing for
out-of-range integers. -/
def int_to_q (ctx : Ctx) (i : Int) : Option Nat :=
  if 0 ≤ i ∧ i < (ctx.Q : Int) then some i.toNat else none

/-- Modelled from the spec: the scalar zero, `ZERO_MOD_Q`. -/
def ZERO_MOD_Q : Nat := 0

/-- An ElGamal ciphertext `(alpha, beta)`: `alpha = g^r`, `beta = g^m · k^r`. -/
structure ElGamalCiphertext where
  alpha : Nat
  beta : Nat
deriving DecidableEq, Repr

/-- `DisjunctiveChaumPedersenProof` from the source: two parallel branch
commitments, challenges and responses. -/
structure DisjunctiveChaumPedersenProof where
  a0 : Nat
  b0 : Nat
  a1 : Nat
  b1 : Nat
  c0 : Nat
  c1 : Nat
  v0 : Nat
  v1 : Nat
deriving DecidableEq, Repr

/-- `ConstantChaumPedersenProof` from the source: commitment pair, challenge,
response and the claimed plaintext constant (a raw Python `int`). -/
structure ConstantChaumPedersenProof where
  a : Nat
  b : Nat
  c : Nat
  v : Nat
  constant : Int
deriving DecidableEq, Repr

/-- `make_disjunctive_chaum_pedersen_zero`: proof that an encryption of zero
is an encryption of zero or one (branch 1 simulated, branch 0 real). -/
def make_disjunctive_chaum_pedersen_zero (ctx : Ctx) (message : ElGamalCiphertext)
    (r k seed : Nat) : DisjunctiveChaumPedersenProof :=
  let alpha := message.alpha
  let beta := message.beta
  let c1 := ctx.nonce seed "disjoint-chaum-pedersen-proof" 0
  let v1 := ctx.nonce seed "disjoint-chaum-pedersen-proof" 1
  let u0 := ctx.nonce seed "disjoint-chaum-pedersen-proof" 2
  let a0 := g_pow_p ctx u0
  let b0 := pow_p ctx k u0
  let q_minus_c1 := negate_q ctx c1
  let a1 := mult_p ctx (g_pow_p ctx v1) (pow_p ctx alpha q_minus_c1)
  let b1 := mult_p ctx (mult_p ctx (pow_p ctx k v1) (g_pow_p ctx c1)) (pow_p ctx beta q_minus_c1)
  let c := ctx.hash [alpha, beta, a0, b0, a1, b1]
  let c0 := a_minus_b_q ctx c c1
  let v0 := a_plus_bc_q ctx u0 c0 r
  ⟨a0, b0, a1, b1, c0, c1, v0, v1⟩

/-- `make_disjunctive_chaum_pedersen_one`: proof that an encryption of one
is an encryption of zero or one (branch 0 simulated, branch 1 real). -/
def make_disjunctive_chaum_pedersen_one (ctx : Ctx) (message : ElGamalCiphertext)
    (r k seed : Nat) : DisjunctiveChaumPedersenProof :=
  let alpha := message.alpha
  let beta := message.beta
  let c0 := ctx.nonce seed "disjoint-chaum-pedersen-proof" 0
  let v0 := ctx.nonce seed "disjoint-chaum-pedersen-proof" 1
  let u1 := ctx.nonce seed "disjoint-chaum-pedersen-proof" 2
  let q_minus_c0 := negate_q ctx c0
  let a0 := mult_p ctx (g_pow_p ctx v0) (pow_p ctx alpha q_minus_c0)
  let b0 := mult_p ctx (pow_p ctx k v0) (pow_p ctx beta q_minus_c0)
  let a1 := g_pow_p ctx u1
  let b1 := pow_p ctx k u1
  let c := ctx.hash [alpha, beta, a0, b0, a1, b1]
  let c1 := a_minus_b_q ctx c c0
  let v1 := a_plus_bc_q ctx u1 c1 r
  ⟨a0, b0, a1, b1, c0, c1, v0, v1⟩

/-- `make_disjunctive_chaum_pedersen`: front-end dispatcher.  The Python
`assert 0 <= plaintext <= 1` (an AssertionError before any cryptographic
work) is modelled as `none`. -/
def make_disjunctive_chaum_pedersen (ctx : Ctx) (message : ElGamalCiphertext)
    (r k seed : Nat) (plaintext : Int) : Option DisjunctiveChaumPedersenProof :=
  if 0 ≤ plaintext ∧ plaintext ≤ 1 then
    if plaintext = 0 then
      some (make_disjunctive_chaum_pedersen_zero ctx message r k seed)
    else
      some (make_disjunctive_chaum_pedersen_one ctx message r k seed)
  else
    none

/-- `make_constant_chaum_pedersen`: proof that an encryption corresponds to a
specific total value. -/
def make_constant_chaum_pedersen (ctx : Ctx) (message : ElGamalCiphertext)
    (constant : Int) (r k seed : Nat) : ConstantChaumPedersenProof :=
  let alpha := message.alpha
  let beta := message.beta
  let u := ctx.nonce seed "constant-chaum-pedersen-proof" 0
  let a := g_pow_p ctx u
  let b := pow_p ctx k u
  let c := ctx.hash [alpha, beta, a, b]
  let v := a_plus_bc_q ctx u c r
  ⟨a, b, c, v, constant⟩

/-- `is_valid_disjunctive_chaum_pedersen`: validates a disjunctive proof
(bounds checks, challenge split, and the four algebraic identities). -/
def is_valid_disjunctive_chaum_pedersen (ctx : Ctx) (message : ElGamalCiphertext)
    (pf : DisjunctiveChaumPedersenProof) (k : Nat) : Bool :=
  let alpha := message.alpha
  let beta := message.beta
  let in_bounds_alpha := valid_residue ctx alpha
  let in_bounds_beta := valid_residue ctx beta
  let in_bounds_a0 := valid_residue ctx pf.a0
  let in_bounds_b0 := valid_residue ctx pf.b0
  let in_bounds_a1 := valid_residue ctx pf.a1
  let in_bounds_b1 := valid_residue ctx pf.b1
  let in_bounds_c0 := in_bounds_q ctx pf.c0
  let in_bounds_c1 := in_bounds_q ctx pf.c1
  let in_bounds_v0 := in_bounds_q ctx pf.v0
  let in_bounds_v1 := in_bounds_q ctx pf.v1
  let c := ctx.hash [alpha, beta, pf.a0, pf.b0, pf.a1, pf.b1]
  let consistent_c := decide (c = add_q ctx pf.c0 pf.c1)
  let consistent_gv0 := decide (g_pow_p ctx pf.v0 = mult_p ctx pf.a0 (pow_p ctx alpha pf.c0))
  let consistent_gv1 := decide (g_pow_p ctx pf.v1 = mult_p ctx pf.a1 (pow_p ctx alpha pf.c1))
  let consistent_kv0 := decide (pow_p ctx k pf.v0 = mult_p ctx pf.b0 (pow_p ctx beta pf.c0))
  let consistent_gc1kv1 :=
    decide (mult_p ctx (g_pow_p ctx pf.c1) (pow_p ctx k pf.v1)
      = mult_p ctx pf.b1 (pow_p ctx beta pf.c1))
  in_bounds_alpha && in_bounds_beta && in_bounds_a0 && in_bounds_b0 &&
    in_bounds_a1 && in_bounds_b1 && in_bounds_c0 && in_bounds_c1 &&
    in_bounds_v0 && in_bounds_v1 && consistent_c && consistent_gv0 &&
    consistent_gv1 && consistent_kv0 && consistent_gc1kv1

/-- `is_valid_constant_chaum_pedersen`: validates a constant proof.  As in the
source, `in_bounds_c` inspects the proof's own `c` field, while the algebraic
checks use the freshly recomputed hash (the source shadows the name `c`);
an `int_to_q` failure sets `constant_q` to zero and fails `in_bounds_constant`. -/
def is_valid_constant_chaum_pedersen (ctx : Ctx) (message : ElGamalCiphertext)
    (pf : ConstantChaumPedersenProof) (k : Nat) : Bool :=
  let alpha := message.alpha
  let beta := message.beta
  let in_bounds_alpha := valid_residue ctx alpha
  let in_bounds_beta := valid_residue ctx beta
  let in_bounds_a := valid_residue ctx pf.a
  let in_bounds_b := valid_residue ctx pf.b
  let in_bounds_c := in_bounds_q ctx pf.c
  let in_bounds_v := in_bounds_q ctx pf.v
  let constant_q := (int_to_q ctx pf.constant).getD ZERO_MOD_Q
  let in_bounds_constant := (int_to_q ctx pf.constant).isSome
  let sane_constant := decide (0 ≤ pf.constant ∧ pf.constant < 1000000000)
  let c := ctx.hash [alpha, beta, pf.a, pf.b]
  let consistent_gv :=
    in_bounds_v && in_bounds_a && in_bounds_alpha && in_bounds_c &&
      decide (g_pow_p ctx pf.v = mult_p ctx pf.a (pow_p ctx alpha c))
  let consistent_kv :=
    in_bounds_constant &&
      decide (mult_p ctx (g_pow_p ctx (mult_p ctx c constant_q)) (pow_p ctx k pf.v)
        = mult_p ctx pf.b (pow_p ctx beta c))
  in_bounds_alpha && in_bounds_beta && in_bounds_a && in_bounds_b &&
    in_bounds_c && in_bounds_v && in_bounds_constant && sane_constant &&
    consistent_gv && consistent_kv
/-! ### Modular-arithmetic kit

Facts about powers and products mod `P` used to discharge the verifier's
residue checks and algebraic identities; `Q` is the order of the bases
involved.  Stated over plain naturals via `Nat.ModEq`. -/

theorem mod_e {P : Nat} (a : Nat) : a % P ≡ a [MOD P] :=
  Nat.mod_modEq a P

theorem ord_modeq_one {P Q b : Nat} (h1 : 1 < P) (hb : b ^ Q % P = 1) :
    b ^ Q ≡ 1 [MOD P] := by
  show b ^ Q % P = 1 % P
  rw [hb, Nat.mod_eq_of_lt h1]

theorem pow_reduce {P Q b : Nat} (hb : b ^ Q ≡ 1 [MOD P]) (x : Nat) :
    b ^ x ≡ b ^ (x % Q) [MOD P] := by
  have h2 : (b ^ Q) ^ (x / Q) * b ^ (x % Q) ≡ 1 ^ (x / Q) * b ^ (x % Q) [MOD P] :=
    Nat.ModEq.mul (hb.pow _) (Nat.ModEq.refl _)
  rw [one_pow, one_mul] at h2
  have h3 : b ^ x = (b ^ Q) ^ (x / Q) * b ^ (x % Q) := by
    rw [← pow_mul, ← pow_add, Nat.div_add_mod]
  rw [h3]
  exact h2

theorem pow_vanish {P Q b x : Nat} (hb : b ^ Q ≡ 1 [MOD P]) (hx : x % Q = 0) :
    b ^ x ≡ 1 [MOD P] := by
  have h2 := pow_reduce hb x
  rw [hx, pow_zero] at h2
  exact h2

theorem neg_cancel {Q c : Nat} (hc : c < Q) : ((Q - c % Q) % Q + c) % Q = 0 := by
  rw [Nat.mod_eq_of_lt hc]
  rcases Nat.eq_zero_or_pos c with h0 | h0
  · subst h0
    simp
  · have h2 : Q - c < Q := by omega
    rw [Nat.mod_eq_of_lt h2, Nat.sub_add_cancel hc.le, Nat.mod_self]

theorem c_split {Q c cc : Nat} (hc : c < Q) (hcc : cc < Q) :
    ((c + (Q - cc % Q)) % Q + cc) % Q = c := by
  rw [Nat.mod_eq_of_lt hcc, Nat.add_mod, Nat.mod_mod_of_dvd _ dvd_rfl, ← Nat.add_mod,
    Nat.add_assoc, Nat.sub_add_cancel hcc.le, Nat.add_mod_right, Nat.mod_eq_of_lt hc]

theorem residue_mk {ctx : Ctx} (h1 : 1 < ctx.P) {x : Nat}
    (hx : x ^ ctx.Q ≡ 1 [MOD ctx.P]) : valid_residue ctx (x % ctx.P) = true := by
  simp only [valid_residue, Bool.and_eq_true, decide_eq_true_eq]
  constructor
  · exact Nat.mod_lt _ (by omega)
  · have h2 : (x % ctx.P) ^ ctx.Q ≡ 1 [MOD ctx.P] := ((mod_e x).pow _).trans hx
    have h3 : (x % ctx.P) ^ ctx.Q % ctx.P = 1 % ctx.P := h2
    rw [Nat.mod_eq_of_lt h1] at h3
    exact h3

theorem pow_ord {P Q b : Nat} (hb : b ^ Q ≡ 1 [MOD P]) (x : Nat) :
    (b ^ x) ^ Q ≡ 1 [MOD P] := by
  have h2 : (b ^ x) ^ Q = (b ^ Q) ^ x := by
    rw [← pow_mul, Nat.mul_comm, pow_mul]
  rw [h2]
  have h3 := hb.pow x
  rw [one_pow] at h3
  exact h3

theorem mul_ord {P Q x y : Nat} (hx : x ^ Q ≡ 1 [MOD P]) (hy : y ^ Q ≡ 1 [MOD P]) :
    (x * y) ^ Q ≡ 1 [MOD P] := by
  rw [mul_pow]
  have h2 := hx.mul hy
  rw [one_mul] at h2
  exact h2

theorem modpow_ord {P Q b : Nat} (hb : b ^ Q ≡ 1 [MOD P]) (x : Nat) :
    (b ^ x % P) ^ Q ≡ 1 [MOD P] :=
  ((mod_e (b ^ x)).pow _).trans (pow_ord hb x)

theorem in_q_mk {ctx : Ctx} {x : Nat} (h : x < ctx.Q) : in_bounds_q ctx x = true := by
  simp only [in_bounds_q, decide_eq_true_eq]
  exact h

theorem real_branch_eq {P Q b : Nat} (hb : b ^ Q ≡ 1 [MOD P]) (u c r : Nat) :
    b ^ ((u + c * r) % Q) % P = (b ^ u % P) * ((b ^ r % P) ^ c % P) % P := by
  have h : b ^ ((u + c * r) % Q) ≡ (b ^ u % P) * ((b ^ r % P) ^ c % P) [MOD P] :=
    calc b ^ ((u + c * r) % Q)
        ≡ b ^ (u + c * r) [MOD P] := (pow_reduce hb _).symm
      _ = b ^ u * (b ^ r) ^ c := by ring
      _ ≡ (b ^ u % P) * ((b ^ r % P) ^ c % P) [MOD P] :=
          ((mod_e _).mul ((mod_e _).trans ((mod_e _).pow c))).symm
  exact h

theorem sim_cancel {P Q b x : Nat} (hx : x ^ Q ≡ 1 [MOD P]) (v c : Nat) (hc : c < Q) :
    ((b ^ v % P) * (x ^ ((Q - c % Q) % Q) % P) % P) * (x ^ c % P) % P = b ^ v % P := by
  have h : ((b ^ v % P) * (x ^ ((Q - c % Q) % Q) % P) % P) * (x ^ c % P) ≡ b ^ v [MOD P] :=
    calc ((b ^ v % P) * (x ^ ((Q - c % Q) % Q) % P) % P) * (x ^ c % P)
        ≡ (b ^ v * x ^ ((Q - c % Q) % Q)) * x ^ c [MOD P] :=
          ((mod_e _).trans ((mod_e _).mul (mod_e _))).mul (mod_e _)
      _ = b ^ v * x ^ ((Q - c % Q) % Q + c) := by ring
      _ ≡ b ^ v * 1 [MOD P] := (Nat.ModEq.refl _).mul (pow_vanish hx (neg_cancel hc))
      _ = b ^ v := by ring
  exact h

theorem sim_b1_eq {P Q g k : Nat} (hk : k ^ Q ≡ 1 [MOD P]) (v1 r c1 : Nat) (hc1 : c1 < Q) :
    (g ^ c1 % P) * (k ^ v1 % P) % P
      = (((k ^ v1 % P) * (g ^ c1 % P) % P) * ((k ^ r % P) ^ ((Q - c1 % Q) % Q) % P) % P)
          * ((k ^ r % P) ^ c1 % P) % P := by
  have hvan : k ^ (r * ((Q - c1 % Q) % Q + c1)) ≡ 1 [MOD P] := by
    refine pow_vanish hk ?_
    rw [Nat.mul_mod, neg_cancel hc1, Nat.mul_zero, Nat.zero_mod]
  have h : (g ^ c1 % P) * (k ^ v1 % P)
      ≡ (((k ^ v1 % P) * (g ^ c1 % P) % P) * ((k ^ r % P) ^ ((Q - c1 % Q) % Q) % P) % P)
          * ((k ^ r % P) ^ c1 % P) [MOD P] :=
    calc (g ^ c1 % P) * (k ^ v1 % P)
        ≡ g ^ c1 * k ^ v1 [MOD P] := (mod_e _).mul (mod_e _)
      _ = g ^ c1 * k ^ v1 * 1 := by ring
      _ ≡ g ^ c1 * k ^ v1 * k ^ (r * ((Q - c1 % Q) % Q + c1)) [MOD P] :=
          (Nat.ModEq.refl _).mul hvan.symm
      _ = ((k ^ v1 * g ^ c1) * (k ^ r) ^ ((Q - c1 % Q) % Q)) * (k ^ r) ^ c1 := by
          rw [Nat.mul_add, pow_add, ← pow_mul, ← pow_mul]
          ring
      _ ≡ (((k ^ v1 % P) * (g ^ c1 % P) % P) * ((k ^ r % P) ^ ((Q - c1 % Q) % Q) % P) % P)
          * ((k ^ r % P) ^ c1 % P) [MOD P] :=
          (((mod_e _).trans
            ((((mod_e _).trans ((mod_e _).mul (mod_e _))).mul
              ((mod_e _).trans ((mod_e _).pow _))))).mul
            ((mod_e _).trans ((mod_e _).pow _))).symm
  exact h

theorem one_real_b1_eq {P Q g k : Nat} (hk : k ^ Q ≡ 1 [MOD P]) (u1 c1 r : Nat) :
    (g ^ c1 % P) * (k ^ ((u1 + c1 * r) % Q) % P) % P
      = (k ^ u1 % P) * ((g * k ^ r % P) ^ c1 % P) % P := by
  have h : (g ^ c1 % P) * (k ^ ((u1 + c1 * r) % Q) % P)
      ≡ (k ^ u1 % P) * ((g * k ^ r % P) ^ c1 % P) [MOD P] :=
    calc (g ^ c1 % P) * (k ^ ((u1 + c1 * r) % Q) % P)
        ≡ g ^ c1 * k ^ ((u1 + c1 * r) % Q) [MOD P] := (mod_e _).mul (mod_e _)
      _ ≡ g ^ c1 * k ^ (u1 + c1 * r) [MOD P] :=
          (Nat.ModEq.refl _).mul (pow_reduce hk _).symm
      _ = k ^ u1 * (g * k ^ r) ^ c1 := by
          rw [mul_pow, ← pow_mul]
          ring
      _ ≡ (k ^ u1 % P) * ((g * k ^ r % P) ^ c1 % P) [MOD P] :=
          ((mod_e _).mul ((mod_e _).trans ((mod_e _).pow _))).symm
  exact h

/-! ### Verifier characterizations -/

theorem is_valid_disjunctive_eq_true_iff (ctx : Ctx) (msg : ElGamalCiphertext)
    (pf : DisjunctiveChaumPedersenProof) (k : Nat) :
    is_valid_disjunctive_chaum_pedersen ctx msg pf k = true ↔
      (valid_residue ctx msg.alpha = true ∧ valid_residue ctx msg.beta = true ∧
       valid_residue ctx pf.a0 = true ∧ valid_residue ctx pf.b0 = true ∧
       valid_residue ctx pf.a1 = true ∧ valid_residue ctx pf.b1 = true ∧
       pf.c0 < ctx.Q ∧ pf.c1 < ctx.Q ∧ pf.v0 < ctx.Q ∧ pf.v1 < ctx.Q ∧
       ctx.hash [msg.alpha, msg.beta, pf.a0, pf.b0, pf.a1, pf.b1] = add_q ctx pf.c0 pf.c1 ∧
       g_pow_p ctx pf.v0 = mult_p ctx pf.a0 (pow_p ctx msg.alpha pf.c0) ∧
       g_pow_p ctx pf.v1 = mult_p ctx pf.a1 (pow_p ctx msg.alpha pf.c1) ∧
       pow_p ctx k pf.v0 = mult_p ctx pf.b0 (pow_p ctx msg.beta pf.c0) ∧
       mult_p ctx (g_pow_p ctx pf.c1) (pow_p ctx k pf.v1)
         = mult_p ctx pf.b1 (pow_p ctx msg.beta pf.c1)) := by
  simp only [is_valid_disjunctive_chaum_pedersen, in_bounds_q, Bool.and_eq_true,
    decide_eq_true_eq, and_assoc]

theorem is_valid_constant_eq_true_iff (ctx : Ctx) (msg : ElGamalCiphertext)
    (pf : ConstantChaumPedersenProof) (k : Nat) :
    is_valid_constant_chaum_pedersen ctx msg pf k = true ↔
      (valid_residue ctx msg.alpha = true ∧ valid_residue ctx msg.beta = true ∧
       valid_residue ctx pf.a = true ∧ valid_residue ctx pf.b = true ∧
       pf.c < ctx.Q ∧ pf.v < ctx.Q ∧
       (int_to_q ctx pf.constant).isSome = true ∧
       (0 ≤ pf.constant ∧ pf.constant < 1000000000) ∧
       g_pow_p ctx pf.v
         = mult_p ctx pf.a (pow_p ctx msg.alpha (ctx.hash [msg.alpha, msg.beta, pf.a, pf.b])) ∧
       mult_p ctx (g_pow_p ctx (mult_p ctx (ctx.hash [msg.alpha, msg.beta, pf.a, pf.b])
           ((int_to_q ctx pf.constant).getD ZERO_MOD_Q))) (pow_p ctx k pf.v)
         = mult_p ctx pf.b (pow_p ctx msg.beta (ctx.hash [msg.alpha, msg.beta, pf.a, pf.b]))) := by
  simp only [is_valid_constant_chaum_pedersen, in_bounds_q, Bool.and_eq_true,
    decide_eq_true_eq, and_assoc]
  tauto

theorem modmul_ord {P Q x y : Nat} (hx : x ^ Q ≡ 1 [MOD P]) (hy : y ^ Q ≡ 1 [MOD P]) :
    (x * y % P) ^ Q ≡ 1 [MOD P] :=
  ((mod_e _).pow _).trans (mul_ord hx hy)

theorem c_split2 {Q c cc : Nat} (hc : c < Q) (hcc : cc < Q) :
    (cc + (c + (Q - cc % Q)) % Q) % Q = c := by
  rw [Nat.add_comm]
  exact c_split hc hcc

/-! ### Completeness of the disjunctive builders -/

theorem disjunctive_zero_complete (ctx : Ctx) (msg : ElGamalCiphertext) (r k seed : Nat)
    (h1 : 1 < ctx.P)
    (hg : ctx.g ^ ctx.Q % ctx.P = 1)
    (hk : k ^ ctx.Q % ctx.P = 1)
    (hhash : ∀ l, ctx.hash l < ctx.Q)
    (hnonce : ∀ s lbl i, ctx.nonce s lbl i < ctx.Q)
    (halpha : msg.alpha = ctx.g ^ r % ctx.P)
    (hbeta : msg.beta = k ^ r % ctx.P) :
    is_valid_disjunctive_chaum_pedersen ctx msg
      (make_disjunctive_chaum_pedersen_zero ctx msg r k seed) k = true := by
  have hgm : ctx.g ^ ctx.Q ≡ 1 [MOD ctx.P] := ord_modeq_one h1 hg
  have hkm : k ^ ctx.Q ≡ 1 [MOD ctx.P] := ord_modeq_one h1 hk
  have hQ0 : 0 < ctx.Q := lt_of_le_of_lt (Nat.zero_le _) (hhash [])
  rw [is_valid_disjunctive_eq_true_iff]
  simp only [make_disjunctive_chaum_pedersen_zero, g_pow_p, pow_p, mult_p, negate_q,
    a_minus_b_q, a_plus_bc_q, add_q]
  rw [halpha, hbeta]
  refine ⟨?_, ?_, ?_, ?_, ?_, ?_, ?_, ?_, ?_, ?_, ?_, ?_, ?_, ?_, ?_⟩
  · exact residue_mk h1 (pow_ord hgm r)
  · exact residue_mk h1 (pow_ord hkm r)
  · exact residue_mk h1 (pow_ord hgm _)
  · exact residue_mk h1 (pow_ord hkm _)
  · exact residue_mk h1 (mul_ord (modpow_ord hgm _) (modpow_ord (modpow_ord hgm r) _))
  · exact residue_mk h1 (mul_ord (modmul_ord (modpow_ord hkm _) (modpow_ord hgm _))
      (modpow_ord (modpow_ord hkm r) _))
  · exact Nat.mod_lt _ hQ0
  · exact hnonce _ _ _
  · exact Nat.mod_lt _ hQ0
  · exact hnonce _ _ _
  · exact (c_split (hhash _) (hnonce _ _ _)).symm
  · exact real_branch_eq hgm _ _ r
  · exact (sim_cancel (modpow_ord hgm r) _ _ (hnonce _ _ _)).symm
  · exact real_branch_eq hkm _ _ r
  · exact (sim_b1_eq hkm _ r _ (hnonce _ _ _))

theorem disjunctive_one_complete (ctx : Ctx) (msg : ElGamalCiphertext) (r k seed : Nat)
    (h1 : 1 < ctx.P)
    (hg : ctx.g ^ ctx.Q % ctx.P = 1)
    (hk : k ^ ctx.Q % ctx.P = 1)
    (hhash : ∀ l, ctx.hash l < ctx.Q)
    (hnonce : ∀ s lbl i, ctx.nonce s lbl i < ctx.Q)
    (halpha : msg.alpha = ctx.g ^ r % ctx.P)
    (hbeta : msg.beta = ctx.g * k ^ r % ctx.P) :
    is_valid_disjunctive_chaum_pedersen ctx msg
      (make_disjunctive_chaum_pedersen_one ctx msg r k seed) k = true := by
  have hgm : ctx.g ^ ctx.Q ≡ 1 [MOD ctx.P] := ord_modeq_one h1 hg
  have hkm : k ^ ctx.Q ≡ 1 [MOD ctx.P] := ord_modeq_one h1 hk
  have hQ0 : 0 < ctx.Q := lt_of_le_of_lt (Nat.zero_le _) (hhash [])
  rw [is_valid_disjunctive_eq_true_iff]
  simp only [make_disjunctive_chaum_pedersen_one, g_pow_p, pow_p, mult_p, negate_q,
    a_minus_b_q, a_plus_bc_q, add_q]
  rw [halpha, hbeta]
  refine ⟨?_, ?_, ?_, ?_, ?_, ?_, ?_, ?_, ?_, ?_, ?_, ?_, ?_, ?_, ?_⟩
  · exact residue_mk h1 (pow_ord hgm r)
  · exact residue_mk h1 (mul_ord hgm (pow_ord hkm r))
  · exact residue_mk h1 (mul_ord (modpow_ord hgm _) (modpow_ord (modpow_ord hgm r) _))
  · exact residue_mk h1 (mul_ord (modpow_ord hkm _)
      (modpow_ord (modmul_ord hgm (pow_ord hkm r)) _))
  · exact residue_mk h1 (pow_ord hgm _)
  · exact residue_mk h1 (pow_ord hkm _)
  · exact hnonce _ _ _
  · exact Nat.mod_lt _ hQ0
  · exact hnonce _ _ _
  · exact Nat.mod_lt _ hQ0
  · exact (c_split2 (hhash _) (hnonce _ _ _)).symm
  · exact (sim_cancel (modpow_ord hgm r) _ _ (hnonce _ _ _)).symm
  · exact real_branch_eq hgm _ _ r
  · exact (sim_cancel (modmul_ord hgm (pow_ord hkm r)) _ _ (hnonce _ _ _)).symm
  · exact one_real_b1_eq hkm _ _ r

/-- A concrete collaborator instance with toy parameters `P = 13`, `Q = 3`,
`g = 3` (an order-3 subgroup mod 13, in the spirit of the spec's toy-group
illustration), a sum-based challenge hash, and an affine nonce stream.  Used
to evaluate the theorems at concrete inputs. -/
def toyCtx : Ctx :=
  ⟨13, 3, 3, fun l => l.foldl (fun a b => a + b) 0 % 3, fun s _ i => (s + i) % 3⟩

/-- C1: completeness of the disjunctive proof.  For every ciphertext
`(alpha, beta)` with `alpha = g^r` and `beta = g^m · k^r` under public key `k`
(a subgroup element) with plaintext `m ∈ {0, 1}`, and every seed, the proof
built by `make_disjunctive_chaum_pedersen` passes
`is_valid_disjunctive_chaum_pedersen`, under the §6 collaborator contracts
(generator and key of order dividing `Q`, hash and nonce outputs in `[0, Q)`). -/
theorem C1_disjunctive_completeness (ctx : Ctx) (msg : ElGamalCiphertext)
    (r k seed : Nat) (m : Int)
    (h1 : 1 < ctx.P)
    (hg : ctx.g ^ ctx.Q % ctx.P = 1)
    (hk : k ^ ctx.Q % ctx.P = 1)
    (hhash : ∀ l, ctx.hash l < ctx.Q)
    (hnonce : ∀ s lbl i, ctx.nonce s lbl i < ctx.Q)
    (hm : m = 0 ∨ m = 1)
    (halpha : msg.alpha = ctx.g ^ r % ctx.P)
    (hbeta : msg.beta = ctx.g ^ m.toNat * k ^ r % ctx.P) :
    (make_disjunctive_chaum_pedersen ctx msg r k seed m).map
      (fun pf => is_valid_disjunctive_chaum_pedersen ctx msg pf k) = some true := by
  rcases hm with hm | hm <;> subst hm
  · rw [show (0 : Int).toNat = 0 from rfl, pow_zero, one_mul] at hbeta
    simp only [make_disjunctive_chaum_pedersen, if_pos (by norm_num : (0:Int) ≤ 0 ∧ (0:Int) ≤ 1),
      if_pos rfl, Option.map_some']
    exact congrArg some
      (disjunctive_zero_complete ctx msg r k seed h1 hg hk hhash hnonce halpha hbeta)
  · rw [show (1 : Int).toNat = 1 from rfl, pow_one] at hbeta
    simp only [make_disjunctive_chaum_pedersen, if_pos (by norm_num : (0:Int) ≤ 1 ∧ (1:Int) ≤ 1),
      if_neg (by norm_num : ¬(1:Int) = 0), Option.map_some']
    exact congrArg some
      (disjunctive_one_complete ctx msg r k seed h1 hg hk hhash hnonce halpha hbeta)

/-- Witness for C1 at the toy context: a zero-encryption with `r = 2`,
`k = 9 = g^2`. -/
theorem C1_disjunctive_completeness_witness :
    (make_disjunctive_chaum_pedersen toyCtx ⟨9, 3⟩ 2 9 1 0).map
      (fun pf => is_valid_disjunctive_chaum_pedersen toyCtx ⟨9, 3⟩ pf 9) = some true :=
  C1_disjunctive_completeness toyCtx ⟨9, 3⟩ 2 9 1 0 (by decide) (by decide) (by decide)
    (fun l => Nat.mod_lt _ (by decide)) (fun s lbl i => Nat.mod_lt _ (by decide))
    (Or.inl rfl) (by decide) (by decide)

/-- C4: challenge-split invariant.  Every proof produced by the zero or one
builder satisfies `c0 + c1 (mod Q) = Hash(alpha, beta, a0, b0, a1, b1)`, and
the verifier returns `false` for any proof violating this equality. -/
theorem C4_challenge_split_invariant (ctx : Ctx) (msg : ElGamalCiphertext)
    (r k seed : Nat) (pf : DisjunctiveChaumPedersenProof)
    (hhash : ∀ l, ctx.hash l < ctx.Q)
    (hnonce : ∀ s lbl i, ctx.nonce s lbl i < ctx.Q) :
    add_q ctx (make_disjunctive_chaum_pedersen_zero ctx msg r k seed).c0
        (make_disjunctive_chaum_pedersen_zero ctx msg r k seed).c1
      = ctx.hash [msg.alpha, msg.beta,
          (make_disjunctive_chaum_pedersen_zero ctx msg r k seed).a0,
          (make_disjunctive_chaum_pedersen_zero ctx msg r k seed).b0,
          (make_disjunctive_chaum_pedersen_zero ctx msg r k seed).a1,
          (make_disjunctive_chaum_pedersen_zero ctx msg r k seed).b1] ∧
    add_q ctx (make_disjunctive_chaum_pedersen_one ctx msg r k seed).c0
        (make_disjunctive_chaum_pedersen_one ctx msg r k seed).c1
      = ctx.hash [msg.alpha, msg.beta,
          (make_disjunctive_chaum_pedersen_one ctx msg r k seed).a0,
          (make_disjunctive_chaum_pedersen_one ctx msg r k seed).b0,
          (make_disjunctive_chaum_pedersen_one ctx msg r k seed).a1,
          (make_disjunctive_chaum_pedersen_one ctx msg r k seed).b1] ∧
    (add_q ctx pf.c0 pf.c1 ≠ ctx.hash [msg.alpha, msg.beta, pf.a0, pf.b0, pf.a1, pf.b1] →
      is_valid_disjunctive_chaum_pedersen ctx msg pf k = false) := by
  refine ⟨?_, ?_, ?_⟩
  · simp only [make_disjunctive_chaum_pedersen_zero, add_q, a_minus_b_q, g_pow_p, pow_p,
      mult_p, negate_q, a_plus_bc_q]
    exact c_split (hhash _) (hnonce _ _ _)
  · simp only [make_disjunctive_chaum_pedersen_one, add_q, a_minus_b_q, g_pow_p, pow_p,
      mult_p, negate_q, a_plus_bc_q]
    exact c_split2 (hhash _) (hnonce _ _ _)
  · intro hne
    rcases Bool.eq_false_or_eq_true (is_valid_disjunctive_chaum_pedersen ctx msg pf k)
      with h | h
    swap
    · exact h
    · obtain ⟨_, _, _, _, _, _, _, _, _, _, hsplit, _⟩ :=
        (is_valid_disjunctive_eq_true_iff ctx msg pf k).mp h
      exact absurd hsplit.symm hne

/-- Witness for C4 at the toy context, with a proof whose challenges violate
the split so the verifier's rejection side also fires. -/
theorem C4_challenge_split_invariant_witness :
    add_q toyCtx (make_disjunctive_chaum_pedersen_zero toyCtx ⟨9, 3⟩ 2 9 1).c0
        (make_disjunctive_chaum_pedersen_zero toyCtx ⟨9, 3⟩ 2 9 1).c1
      = toyCtx.hash [9, 3,
          (make_disjunctive_chaum_pedersen_zero toyCtx ⟨9, 3⟩ 2 9 1).a0,
          (make_disjunctive_chaum_pedersen_zero toyCtx ⟨9, 3⟩ 2 9 1).b0,
          (make_disjunctive_chaum_pedersen_zero toyCtx ⟨9, 3⟩ 2 9 1).a1,
          (make_disjunctive_chaum_pedersen_zero toyCtx ⟨9, 3⟩ 2 9 1).b1] ∧
    is_valid_disjunctive_chaum_pedersen toyCtx ⟨9, 3⟩ ⟨1, 1, 1, 1, 1, 1, 1, 1⟩ 9 = false :=
  ⟨(C4_challenge_split_invariant toyCtx ⟨9, 3⟩ 2 9 1 ⟨1, 1, 1, 1, 1, 1, 1, 1⟩
      (fun l => Nat.mod_lt _ (by decide)) (fun s lbl i => Nat.mod_lt _ (by decide))).1,
   (C4_challenge_split_invariant toyCtx ⟨9, 3⟩ 2 9 1 ⟨1, 1, 1, 1, 1, 1, 1, 1⟩
      (fun l => Nat.mod_lt _ (by decide)) (fun s lbl i => Nat.mod_lt _ (by decide))).2.2
     (by decide)⟩

/-! ### Constant proof: completeness and the final algebraic check -/

theorem constant_kv_eq {P Q g k : Nat} (hgm : g ^ Q ≡ 1 [MOD P])
    (hkm : k ^ Q ≡ 1 [MOD P]) (u c r n : Nat) (hcn : c * n < P) :
    (g ^ (c * n % P) % P) * (k ^ ((u + c * r) % Q) % P) % P
      = (k ^ u % P) * ((g ^ n * k ^ r % P) ^ c % P) % P := by
  rw [Nat.mod_eq_of_lt hcn]
  have h : (g ^ (c * n) % P) * (k ^ ((u + c * r) % Q) % P)
      ≡ (k ^ u % P) * ((g ^ n * k ^ r % P) ^ c % P) [MOD P] :=
    calc (g ^ (c * n) % P) * (k ^ ((u + c * r) % Q) % P)
        ≡ g ^ (c * n) * k ^ ((u + c * r) % Q) [MOD P] := (mod_e _).mul (mod_e _)
      _ ≡ g ^ (c * n) * k ^ (u + c * r) [MOD P] :=
          (Nat.ModEq.refl _).mul (pow_reduce hkm _).symm
      _ = k ^ u * (g ^ n * k ^ r) ^ c := by
          rw [mul_pow, ← pow_mul, ← pow_mul]
          ring
      _ ≡ (k ^ u % P) * ((g ^ n * k ^ r % P) ^ c % P) [MOD P] :=
          ((mod_e _).mul ((mod_e _).trans ((mod_e _).pow _))).symm
  exact h

/-- C2: completeness of the constant proof.  For every ciphertext
`(alpha, beta)` with `alpha = g^r` and `beta = g^n · k^r` under subgroup key
`k` and aggregate randomness `r`, where the constant `n` is below
1,000,000,000 and is encoded successfully by `int_to_q` (`n < Q`), the proof
built by `make_constant_chaum_pedersen` passes
`is_valid_constant_chaum_pedersen` (collaborator contracts as in C1, plus the
size relation `Q² ≤ P` of the group parameters). -/
theorem C2_constant_completeness (ctx : Ctx) (msg : ElGamalCiphertext)
    (n r k seed : Nat)
    (h1 : 1 < ctx.P)
    (hg : ctx.g ^ ctx.Q % ctx.P = 1)
    (hk : k ^ ctx.Q % ctx.P = 1)
    (hhash : ∀ l, ctx.hash l < ctx.Q)
    (hnonce : ∀ s lbl i, ctx.nonce s lbl i < ctx.Q)
    (hQQ : ctx.Q * ctx.Q ≤ ctx.P)
    (hn : n < ctx.Q)
    (hn9 : n < 1000000000)
    (halpha : msg.alpha = ctx.g ^ r % ctx.P)
    (hbeta : msg.beta = ctx.g ^ n * k ^ r % ctx.P) :
    is_valid_constant_chaum_pedersen ctx msg
      (make_constant_chaum_pedersen ctx msg (n : Int) r k seed) k = true := by
  have hgm : ctx.g ^ ctx.Q ≡ 1 [MOD ctx.P] := ord_modeq_one h1 hg
  have hkm : k ^ ctx.Q ≡ 1 [MOD ctx.P] := ord_modeq_one h1 hk
  have hQ0 : 0 < ctx.Q := lt_of_le_of_lt (Nat.zero_le _) (hhash [])
  have hsome : int_to_q ctx (n : Int) = some n := by
    rw [int_to_q, if_pos ⟨by omega, by exact_mod_cast hn⟩]
    rfl
  rw [is_valid_constant_eq_true_iff]
  simp only [make_constant_chaum_pedersen, g_pow_p, pow_p, mult_p, a_plus_bc_q, hsome,
    Option.isSome_some, Option.getD_some]
  rw [halpha, hbeta]
  refine ⟨?_, ?_, ?_, ?_, ?_, ?_, trivial, ⟨by omega, by exact_mod_cast hn9⟩, ?_, ?_⟩
  · exact residue_mk h1 (pow_ord hgm r)
  · exact residue_mk h1 (mul_ord (pow_ord hgm n) (pow_ord hkm r))
  · exact residue_mk h1 (pow_ord hgm _)
  · exact residue_mk h1 (pow_ord hkm _)
  · exact hhash _
  · exact Nat.mod_lt _ hQ0
  · exact real_branch_eq hgm _ _ r
  · exact constant_kv_eq hgm hkm _ _ r n
      (lt_of_lt_of_le (Nat.mul_lt_mul'' (hhash _) hn) hQQ)

/-- Witness for C2 at the toy context: constant 1 encrypted with `r = 1`
under key `k = 3`. -/
theorem C2_constant_completeness_witness :
    is_valid_constant_chaum_pedersen toyCtx ⟨3, 9⟩
      (make_constant_chaum_pedersen toyCtx ⟨3, 9⟩ (1 : Int) 1 3 0) 3 = true :=
  C2_constant_completeness toyCtx ⟨3, 9⟩ 1 1 3 0 (by decide) (by decide) (by decide)
    (fun l => Nat.mod_lt _ (by decide)) (fun s lbl i => Nat.mod_lt _ (by decide))
    (by decide) (by decide) (by decide) (by decide) (by decide)

/-- Modelled from the spec: the constant verifier's final algebraic check as
the spec states it — `g^(c·constant) · k^v = b · beta^c (mod P)` with the
recomputed challenge `c = Hash(alpha, beta, a, b)` and the scalar product
`c·constant` reduced modulo the subgroup order `Q` (`n` is the encoded
constant scalar). -/
def spec_constant_final_check (ctx : Ctx) (msg : ElGamalCiphertext)
    (pf : ConstantChaumPedersenProof) (k : Nat) (n : Nat) : Bool :=
  let c := ctx.hash [msg.alpha, msg.beta, pf.a, pf.b]
  decide (ctx.g ^ (c * n % ctx.Q) % ctx.P * (k ^ pf.v % ctx.P) % ctx.P
    = pf.b * (msg.beta ^ c % ctx.P) % ctx.P)

/-- C3: in `is_valid_constant_chaum_pedersen` the final algebraic check is
exactly the spec's `g^(c·constant) · k^v = b · beta^c (mod P)` with the
product `c·constant` reduced mod `Q`: the verifier equals the conjunction of
its other checks with `spec_constant_final_check`.  (The source reduces the
product with `mult_p`, i.e. mod `P`; under the §6 contracts — hash outputs
below `Q`, encoded constant below `Q`, `Q² ≤ P`, and `g` of order dividing
`Q` — the two reductions agree.) -/
theorem C3_constant_final_check (ctx : Ctx) (msg : ElGamalCiphertext)
    (pf : ConstantChaumPedersenProof) (k : Nat) (n : Nat)
    (h1 : 1 < ctx.P)
    (hg : ctx.g ^ ctx.Q % ctx.P = 1)
    (hhash : ∀ l, ctx.hash l < ctx.Q)
    (hQQ : ctx.Q * ctx.Q ≤ ctx.P)
    (hsome : int_to_q ctx pf.constant = some n) :
    is_valid_constant_chaum_pedersen ctx msg pf k
      = (valid_residue ctx msg.alpha && valid_residue ctx msg.beta &&
         valid_residue ctx pf.a && valid_residue ctx pf.b &&
         in_bounds_q ctx pf.c && in_bounds_q ctx pf.v &&
         decide (0 ≤ pf.constant ∧ pf.constant < 1000000000) &&
         decide (g_pow_p ctx pf.v = mult_p ctx pf.a
           (pow_p ctx msg.alpha (ctx.hash [msg.alpha, msg.beta, pf.a, pf.b]))) &&
         spec_constant_final_check ctx msg pf k n) := by
  have hn_lt : n < ctx.Q := by
    rw [int_to_q] at hsome
    by_cases hcond : 0 ≤ pf.constant ∧ pf.constant < (ctx.Q : Int)
    · rw [if_pos hcond] at hsome
      have h2 : pf.constant.toNat = n := Option.some.inj hsome
      omega
    · rw [if_neg hcond] at hsome
      exact absurd hsome (by simp)
  have hcn : ctx.hash [msg.alpha, msg.beta, pf.a, pf.b] * n < ctx.P :=
    lt_of_lt_of_le (Nat.mul_lt_mul'' (hhash _) hn_lt) hQQ
  have hL : ctx.g ^ (ctx.hash [msg.alpha, msg.beta, pf.a, pf.b] * n % ctx.P) % ctx.P
      = ctx.g ^ (ctx.hash [msg.alpha, msg.beta, pf.a, pf.b] * n % ctx.Q) % ctx.P := by
    rw [Nat.mod_eq_of_lt hcn]
    exact pow_reduce (ord_modeq_one h1 hg) _
  have hget : (int_to_q ctx pf.constant).getD ZERO_MOD_Q = n := by
    rw [hsome]
    rfl
  have hsome' : (int_to_q ctx pf.constant).isSome = true := by
    rw [hsome]
    rfl
  rw [Bool.eq_iff_iff, is_valid_constant_eq_true_iff]
  simp only [Bool.and_eq_true, decide_eq_true_eq, in_bounds_q, hsome', hget,
    spec_constant_final_check, g_pow_p, pow_p, mult_p, hL, eq_self_iff_true, true_and,
    and_true, and_assoc]

/-- Witness for C3 at the toy context with an arbitrary proof record carrying
the encodable constant 1. -/
theorem C3_constant_final_check_witness :
    is_valid_constant_chaum_pedersen toyCtx ⟨3, 9⟩ ⟨1, 1, 2, 2, 1⟩ 3
      = (valid_residue toyCtx 3 && valid_residue toyCtx 9 &&
         valid_residue toyCtx 1 && valid_residue toyCtx 1 &&
         in_bounds_q toyCtx 2 && in_bounds_q toyCtx 2 &&
         decide ((0 : Int) ≤ 1 ∧ (1 : Int) < 1000000000) &&
         decide (g_pow_p toyCtx 2 = mult_p toyCtx 1
           (pow_p toyCtx 3 (toyCtx.hash [3, 9, 1, 1]))) &&
         spec_constant_final_check toyCtx ⟨3, 9⟩ ⟨1, 1, 2, 2, 1⟩ 3 1) :=
  C3_constant_final_check toyCtx ⟨3, 9⟩ ⟨1, 1, 2, 2, 1⟩ 3 1 (by decide) (by decide)
    (fun l => Nat.mod_lt _ (by decide)) (by decide) (by decide)

/-! ### The builders against the spec's algorithms -/

/-- Modelled from the spec: the zero-plaintext disjunctive build algorithm as
§4.1 states it — draw (c1, v1, u0) as nonce-stream indices 0, 1, 2 under the
fixed disjunctive label; simulated branch `a1 = g^v1 · alpha^(−c1)`,
`b1 = k^v1 · g^c1 · beta^(−c1)`; real branch `a0 = g^u0`, `b0 = k^u0`;
`c = Hash(alpha, beta, a0, b0, a1, b1)`; `c0 = c − c1 (mod Q)`;
`v0 = u0 + c0·r (mod Q)`. -/
def spec_disjunctive_zero (ctx : Ctx) (message : ElGamalCiphertext)
    (r k seed : Nat) : DisjunctiveChaumPedersenProof :=
  let alpha := message.alpha
  let beta := message.beta
  let c1 := ctx.nonce seed "disjoint-chaum-pedersen-proof" 0
  let v1 := ctx.nonce seed "disjoint-chaum-pedersen-proof" 1
  let u0 := ctx.nonce seed "disjoint-chaum-pedersen-proof" 2
  let negC1 := (ctx.Q - c1 % ctx.Q) % ctx.Q
  let a0 := ctx.g ^ u0 % ctx.P
  let b0 := k ^ u0 % ctx.P
  let a1 := (ctx.g ^ v1 % ctx.P) * (alpha ^ negC1 % ctx.P) % ctx.P
  let b1 := (k ^ v1 % ctx.P) * (ctx.g ^ c1 % ctx.P) % ctx.P * (beta ^ negC1 % ctx.P) % ctx.P
  let c := ctx.hash [alpha, beta, a0, b0, a1, b1]
  let c0 := (c + (ctx.Q - c1 % ctx.Q)) % ctx.Q
  let v0 := (u0 + c0 * r) % ctx.Q
  ⟨a0, b0, a1, b1, c0, c1, v0, v1⟩

/-- C5: the zero-plaintext builder follows the specified algorithm exactly:
on every input, `make_disjunctive_chaum_pedersen_zero` returns precisely the
record computed by the spec's §4.1 algorithm (nonce indices 0, 1, 2 as
`c1, v1, u0`, simulated branch 1, real branch 0, `c0 = c − c1`,
`v0 = u0 + c0·r`). -/
theorem C5_zero_builder_algorithm (ctx : Ctx) (message : ElGamalCiphertext)
    (r k seed : Nat) :
    make_disjunctive_chaum_pedersen_zero ctx message r k seed
      = spec_disjunctive_zero ctx message r k seed := rfl

/-- Modelled from the spec (the claim's reading of "the roles of branch 0 and
1 swap identically"): the zero algorithm with the two branches exchanged
verbatim, so the simulated branch 0 keeps the `g^c0` factor in `b0`:
`a0 = g^v0 · alpha^(−c0)`, `b0 = k^v0 · g^c0 · beta^(−c0)`, `a1 = g^u1`,
`b1 = k^u1`, `c1 = c − c0 (mod Q)`, `v1 = u1 + c1·r (mod Q)`. -/
def swapped_disjunctive_one (ctx : Ctx) (message : ElGamalCiphertext)
    (r k seed : Nat) : DisjunctiveChaumPedersenProof :=
  let alpha := message.alpha
  let beta := message.beta
  let c0 := ctx.nonce seed "disjoint-chaum-pedersen-proof" 0
  let v0 := ctx.nonce seed "disjoint-chaum-pedersen-proof" 1
  let u1 := ctx.nonce seed "disjoint-chaum-pedersen-proof" 2
  let negC0 := (ctx.Q - c0 % ctx.Q) % ctx.Q
  let a0 := (ctx.g ^ v0 % ctx.P) * (alpha ^ negC0 % ctx.P) % ctx.P
  let b0 := (k ^ v0 % ctx.P) * (ctx.g ^ c0 % ctx.P) % ctx.P * (beta ^ negC0 % ctx.P) % ctx.P
  let a1 := ctx.g ^ u1 % ctx.P
  let b1 := k ^ u1 % ctx.P
  let c := ctx.hash [alpha, beta, a0, b0, a1, b1]
  let c1 := (c + (ctx.Q - c0 % ctx.Q)) % ctx.Q
  let v1 := (u1 + c1 * r) % ctx.Q
  ⟨a0, b0, a1, b1, c0, c1, v0, v1⟩

/-- Counterexample for C6: at a concrete input the one-plaintext builder's
proof differs from the branch-swapped zero algorithm with the `g^c0` factor
in `b0` (the code computes `b0 = k^v0 · beta^(−c0)` with no `g^c0` factor). -/
theorem C6_counterexample :
    make_disjunctive_chaum_pedersen_one toyCtx ⟨9, 9⟩ 2 9 1
      ≠ swapped_disjunctive_one toyCtx ⟨9, 9⟩ 2 9 1 := by decide

/-- Modelled from the spec (amended for C6): the branch-swapped zero
algorithm, except that the simulated branch-0 commitment omits the `g^c0`
factor — `b0 = k^v0 · beta^(−c0)` — matching branch 0's verification
equation `k^v0 = b0 · beta^c0`. -/
def spec_disjunctive_one (ctx : Ctx) (message : ElGamalCiphertext)
    (r k seed : Nat) : DisjunctiveChaumPedersenProof :=
  let alpha := message.alpha
  let beta := message.beta
  let c0 := ctx.nonce seed "disjoint-chaum-pedersen-proof" 0
  let v0 := ctx.nonce seed "disjoint-chaum-pedersen-proof" 1
  let u1 := ctx.nonce seed "disjoint-chaum-pedersen-proof" 2
  let negC0 := (ctx.Q - c0 % ctx.Q) % ctx.Q
  let a0 := (ctx.g ^ v0 % ctx.P) * (alpha ^ negC0 % ctx.P) % ctx.P
  let b0 := (k ^ v0 % ctx.P) * (beta ^ negC0 % ctx.P) % ctx.P
  let a1 := ctx.g ^ u1 % ctx.P
  let b1 := k ^ u1 % ctx.P
  let c := ctx.hash [alpha, beta, a0, b0, a1, b1]
  let c1 := (c + (ctx.Q - c0 % ctx.Q)) % ctx.Q
  let v1 := (u1 + c1 * r) % ctx.Q
  ⟨a0, b0, a1, b1, c0, c1, v0, v1⟩

/-- C6 (amended): on every input the one-plaintext builder equals the
branch-swapped zero algorithm amended so that the simulated branch-0
commitment is `b0 = k^v0 · beta^(−c0)` without a `g^c0` factor; all other
role exchanges (`a0 = g^v0 · alpha^(−c0)`, `a1 = g^u1`, `b1 = k^u1`,
`c1 = c − c0`, `v1 = u1 + c1·r`) are as the claim states. -/
theorem C6_one_builder_swap_amended (ctx : Ctx) (message : ElGamalCiphertext)
    (r k seed : Nat) :
    make_disjunctive_chaum_pedersen_one ctx message r k seed
      = spec_disjunctive_one ctx message r k seed := rfl

/-! ### Range rejection, contract checking, and field dependence -/

/-- C7: the constant verifier returns `false` — as a normal boolean result,
never an exception (the embedding is a total function into `Bool`) — whenever
the proof's constant is negative, at least 1,000,000,000, or not encodable by
`int_to_q`, regardless of every other check. -/
theorem C7_constant_range_rejection (ctx : Ctx) (msg : ElGamalCiphertext)
    (pf : ConstantChaumPedersenProof) (k : Nat)
    (h : pf.constant < 0 ∨ 1000000000 ≤ pf.constant ∨ int_to_q ctx pf.constant = none) :
    is_valid_constant_chaum_pedersen ctx msg pf k = false := by
  rcases Bool.eq_false_or_eq_true (is_valid_constant_chaum_pedersen ctx msg pf k)
    with hb | hb
  swap
  · exact hb
  · exfalso
    obtain ⟨_, _, _, _, _, _, hsome, hsane, _⟩ :=
      (is_valid_constant_eq_true_iff ctx msg pf k).mp hb
    rcases h with h | h | h
    · omega
    · omega
    · rw [h] at hsome
      exact absurd hsome (by simp)

/-- Witness for C7: a negative constant is rejected at the toy context. -/
theorem C7_constant_range_rejection_witness :
    is_valid_constant_chaum_pedersen toyCtx ⟨3, 9⟩ ⟨1, 1, 2, 2, -1⟩ 3 = false :=
  C7_constant_range_rejection toyCtx ⟨3, 9⟩ ⟨1, 1, 2, 2, -1⟩ 3 (Or.inl (by decide))

/-- C8: the disjunctive front-end fails (the Python assertion, modelled as
`none`) for every plaintext outside `{0, 1}` — for any context at all, so no
nonce is drawn and no group operation is performed — and dispatches plaintext
0 to the zero builder and plaintext 1 to the one builder. -/
theorem C8_plaintext_contract (ctx : Ctx) (msg : ElGamalCiphertext)
    (r k seed : Nat) (p : Int)
    (hp : ¬(0 ≤ p ∧ p ≤ 1)) :
    make_disjunctive_chaum_pedersen ctx msg r k seed p = none ∧
    make_disjunctive_chaum_pedersen ctx msg r k seed 0
      = some (make_disjunctive_chaum_pedersen_zero ctx msg r k seed) ∧
    make_disjunctive_chaum_pedersen ctx msg r k seed 1
      = some (make_disjunctive_chaum_pedersen_one ctx msg r k seed) := by
  refine ⟨?_, ?_, ?_⟩
  · simp only [make_disjunctive_chaum_pedersen]
    rw [if_neg hp]
  · simp [make_disjunctive_chaum_pedersen]
  · simp [make_disjunctive_chaum_pedersen]

/-- Witness for C8 with the out-of-range plaintext 2 at the toy context. -/
theorem C8_plaintext_contract_witness :
    make_disjunctive_chaum_pedersen toyCtx ⟨9, 3⟩ 2 9 1 2 = none ∧
    make_disjunctive_chaum_pedersen toyCtx ⟨9, 3⟩ 2 9 1 0
      = some (make_disjunctive_chaum_pedersen_zero toyCtx ⟨9, 3⟩ 2 9 1) ∧
    make_disjunctive_chaum_pedersen toyCtx ⟨9, 3⟩ 2 9 1 1
      = some (make_disjunctive_chaum_pedersen_one toyCtx ⟨9, 3⟩ 2 9 1) :=
  C8_plaintext_contract toyCtx ⟨9, 3⟩ 2 9 1 2 (by decide)

/-- Counterexample for C9: two constant proofs differing only in the `c`
field on which the verifier disagrees — the in-bounds `c = 2` verifies, the
out-of-bounds `c = 3 = Q` fails the verifier's `in_bounds_c` check on the
proof's own field. -/
theorem C9_counterexample :
    is_valid_constant_chaum_pedersen toyCtx ⟨3, 9⟩ ⟨1, 1, 2, 2, 1⟩ 3 = true ∧
    is_valid_constant_chaum_pedersen toyCtx ⟨3, 9⟩ ⟨1, 1, 3, 2, 1⟩ 3 = false := by
  constructor
  · decide
  · decide

/-- C9 (amended): the constant verifier's outcome depends on the proof's own
`c` field only through the `in_bounds_q` check: for any two proofs that
differ only in `c` with both values in `[0, Q)`, verification agrees — all
algebraic checks use only the freshly recomputed hash. -/
theorem C9_hash_authoritative (ctx : Ctx) (msg : ElGamalCiphertext)
    (k : Nat) (pf : ConstantChaumPedersenProof) (c1 c2 : Nat)
    (h1 : c1 < ctx.Q) (h2 : c2 < ctx.Q) :
    is_valid_constant_chaum_pedersen ctx msg ⟨pf.a, pf.b, c1, pf.v, pf.constant⟩ k
      = is_valid_constant_chaum_pedersen ctx msg ⟨pf.a, pf.b, c2, pf.v, pf.constant⟩ k := by
  simp only [is_valid_constant_chaum_pedersen, in_bounds_q]
  rw [decide_eq_true h1, decide_eq_true h2]

/-- Witness for C9 (amended) at the toy context: in-bounds `c` values 0 and 2
give the same verification result. -/
theorem C9_hash_authoritative_witness :
    is_valid_constant_chaum_pedersen toyCtx ⟨3, 9⟩ ⟨1, 1, 0, 2, 1⟩ 3
      = is_valid_constant_chaum_pedersen toyCtx ⟨3, 9⟩ ⟨1, 1, 2, 2, 1⟩ 3 :=
  C9_hash_authoritative toyCtx ⟨3, 9⟩ 3 ⟨1, 1, 0, 2, 1⟩ 0 2 (by decide) (by decide)

/-- C10: `make_constant_chaum_pedersen` performs no validation of its
constant argument: for every integer constant (negative or arbitrarily
large) it returns a proof whose `constant` field is the argument unchanged. -/
theorem C10_constant_builder_no_validation (ctx : Ctx) (msg : ElGamalCiphertext)
    (constant : Int) (r k seed : Nat) :
    (make_constant_chaum_pedersen ctx msg constant r k seed).constant = constant := rfl
